import Mathlib

/-!
# Fuel-cell animation: the hydrogen-pair state machine of `script.js`

Shallow embedding of `createEntities` and `updateEntities` (script.js, lines 84-232)
together with the geometry constants and the mutable globals they read and write.

Modelling conventions
* JavaScript numbers are idealised as rationals (`ℚ`); every literal and every
  arithmetic expression is transcribed as written in the source.
* The mutable globals `hydrogen`, `lastPairTime`, `nextPairId`, `pairQueue`,
  `allowedPairId`, `oxygen`, `reactionInProgress`, `h2oList` are the fields of `State`.
* `now()` is an effect: `createEntities` reads it once (the argument `t`);
  `updateEntities` reads it a variable number of times, so it receives the stream
  `clock : ℕ → ℚ` whose `k`-th entry is the value returned by the `k`-th call.
* `canvas.width` comes from the host page, which is not part of the script: it is the
  parameter `canvasWidth`.
* The decorative `particles.minus` / `particles.plus` lists (driven by `Math.random`)
  are read and written by no other part of the state and are left out.
-/

namespace FuelCell

/-! ## Geometry (script.js lines 41-51) -/

/-- Axis-aligned rectangle, as in the object literals of `fuelCell` and `columns`. -/
structure Rect where
  x : ℚ
  y : ℚ
  width : ℚ
  height : ℚ

/-- Transcription of `const fuelCell`. -/
def fuelCell : Rect := { x := 100, y := 150, width := 600, height := 300 }

/-- Transcription of `columns.leftElectrode`. -/
def leftElectrode : Rect :=
  { x := fuelCell.x + 2, y := fuelCell.y + 2, width := 150, height := fuelCell.height - 4 }

/-- Transcription of `columns.electrolyte`. -/
def electrolyte : Rect :=
  { x := fuelCell.x + 152, y := fuelCell.y + 2, width := 296, height := fuelCell.height - 4 }

/-- Transcription of `columns.rightElectrode`. -/
def rightElectrode : Rect :=
  { x := fuelCell.x + 448, y := fuelCell.y + 2, width := 150, height := fuelCell.height - 4 }

/-- Transcription of `electrolyteBorders.left`. -/
def borderLeft : Rect :=
  { x := electrolyte.x, y := electrolyte.y, width := 10, height := electrolyte.height }

/-- Transcription of `electrolyteBorders.right`. -/
def borderRight : Rect :=
  { x := electrolyte.x + electrolyte.width - 10, y := electrolyte.y, width := 10,
    height := electrolyte.height }

/-! ## Settings (script.js lines 58-64, 74) -/

/-- Value of `hydrogenSettings.gapMs`. -/
def gapMs : ℚ := 3000
/-- Value of `hydrogenSettings.pairGapY`. -/
def pairGapY : ℚ := 25
/-- Value of `hydrogenSettings.radius`. -/
def radius : ℚ := 12
/-- Value of `hydrogenSettings.baseSpeed`. -/
def baseSpeed : ℚ := 1.2
/-- Value of `hydrogenSettings.pairHorizontalMultiplier`. -/
def pairHorizontalMultiplier : ℚ := 1.5
/-- Value of `oxygenBaseSpeed`. -/
def oxygenBaseSpeed : ℚ := 0.7

/-- Local `ionizeX` of `updateEntities` (line 138). -/
def ionizeX : ℚ := borderLeft.x + borderLeft.width
/-- Local `stopX` of `updateEntities` (line 139). -/
def stopX : ℚ := borderRight.x - 6
/-- Local `minX` of the oxygen block (line 179). -/
def minX : ℚ := borderRight.x + 10
/-- Local `returnX` of the water loop (line 219). -/
def returnX : ℚ := rightElectrode.x + rightElectrode.width - 6

/-! ## Data model -/

/-- Element of the `hydrogen` array (object literal of lines 102-103). -/
structure Hydrogen where
  x : ℚ
  y : ℚ
  vx : ℚ
  ionized : Bool
  stopped : Bool
  label : String
  pairId : ℕ
deriving DecidableEq

/-- The `oxygen` object (object literal of lines 111-117). -/
structure Oxygen where
  x : ℚ
  y : ℚ
  vx : ℚ
  active : Bool
  targetPairId : ℕ
deriving DecidableEq

/-- Element of `h2oList` (object literal of line 201); `fadeStart = none` is `null`. -/
structure H2O where
  x : ℚ
  y : ℚ
  vx : ℚ
  alpha : ℚ
  fadeStart : Option ℚ
deriving DecidableEq

/-- The mutable globals of the script that the simulation core reads and writes. -/
structure State where
  hydrogen : List Hydrogen
  lastPairTime : ℚ
  nextPairId : ℕ
  pairQueue : List ℕ
  allowedPairId : Option ℕ
  oxygen : Option Oxygen
  reactionInProgress : Bool
  h2oList : List H2O
deriving DecidableEq

/-- Globals after the top-level code has run (lines 57-78 and 349), where `t0` is the
value `now()` returned on line 349. -/
def init (t0 : ℚ) : State :=
  { hydrogen := []
    lastPairTime := t0 - gapMs * 0.9
    nextPairId := 1
    pairQueue := []
    allowedPairId := none
    oxygen := none
    reactionInProgress := false
    h2oList := [] }

/-! ## `createEntities` (script.js lines 84-120) -/

/-- Lines 89-104: spawn and admit a hydrogen pair. -/
def admitPair (t : ℚ) (s : State) : State :=
  if t - s.lastPairTime ≥ gapMs ∧ s.pairQueue.length = 0 then
    let startX := leftElectrode.x + 6
    let baseY := leftElectrode.y + leftElectrode.height / 2
    let pairId := s.nextPairId
    { s with
      lastPairTime := t
      nextPairId := s.nextPairId + 1
      pairQueue := s.pairQueue ++ [pairId]
      allowedPairId := some pairId
      hydrogen := s.hydrogen ++
        [ { x := startX, y := baseY - pairGapY, vx := baseSpeed, ionized := false,
            stopped := false, label := "H", pairId := pairId },
          { x := startX, y := baseY + pairGapY, vx := baseSpeed, ionized := false,
            stopped := false, label := "H", pairId := pairId } ] }
  else s

/-- Line 109: the `reduce` counting the ionized members of pair `a`. -/
def ionizedCount (a : ℕ) (hs : List Hydrogen) : ℕ :=
  hs.foldl (fun c h => if h.pairId = a ∧ h.ionized = true then c + 1 else c) 0

/-- Lines 106-119: spawn the oxygen particle. -/
def spawnOxygen (s : State) : State :=
  match s.oxygen, s.reactionInProgress, s.allowedPairId with
  | none, false, some a =>
    if ionizedCount a s.hydrogen ≥ 2 then
      let o : Oxygen :=
        { x := rightElectrode.x + rightElectrode.width - 8
          y := rightElectrode.y + rightElectrode.height / 2
          vx := -oxygenBaseSpeed
          active := true
          targetPairId := a }
      { s with oxygen := some o }
    else s
  | _, _, _ => s

/-- The function `createEntities`, with `t` the value of `now()` read on line 90. -/
def createEntities (t : ℚ) (s : State) : State :=
  spawnOxygen (admitPair t s)

/-! ## `updateEntities` (script.js lines 123-232) -/

/-- Lines 145-168: body of the hydrogen loop before the clean-up test. -/
def moveHydrogen (allowedPairId : Option ℕ) (globalSpeed : ℚ) (p : Hydrogen) : Hydrogen :=
  if some p.pairId = allowedPairId then
    if p.ionized = false then
      let x1 := p.x + p.vx * globalSpeed * pairHorizontalMultiplier
      if x1 + radius ≥ ionizeX then
        { p with x := x1, ionized := true, label := "H+", vx := baseSpeed * 1.2 }
      else { p with x := x1 }
    else
      let x1 := p.x + p.vx * globalSpeed
      if x1 ≥ stopX - radius then
        { p with x := stopX - radius, stopped := true, vx := 0 }
      else { p with x := x1 }
  else p

/-- Lines 141-172: the hydrogen loop. Each element is updated on its own and then
spliced out when it lies beyond `canvas.width + 80`; the relative order is kept. -/
def updateHydrogen (canvasWidth : ℕ) (globalSpeed : ℚ) (s : State) : State :=
  let moved := s.hydrogen.map (moveHydrogen s.allowedPairId globalSpeed)
  { s with hydrogen := moved.filter (fun p => ¬ (p.x > (canvasWidth : ℚ) + 80)) }

/-- Lines 176-183: oxygen displacement and clamp at the right electrolyte border. -/
def moveOxygen (globalSpeed : ℚ) (o : Oxygen) : Oxygen :=
  let x1 := o.x + o.vx * globalSpeed
  if x1 < minX then { o with x := minX, vx := 0 } else { o with x := x1 }

/-- Line 186: the `filter` selecting the ionized and stopped atoms of pair `a`. -/
def members (a : ℕ) (hs : List Hydrogen) : List Hydrogen :=
  hs.filter (fun h => h.pairId = a ∧ h.ionized = true ∧ h.stopped = true)

/-- Lines 195-210: the effect of the reaction with the target pair of `o`, the water
being created at `(avgX, avgY)`. -/
def react (o : Oxygen) (avgX avgY : ℚ) (s : State) : State :=
  { s with
    hydrogen := s.hydrogen.filter (fun h => ¬ (h.pairId = o.targetPairId))
    h2oList := s.h2oList ++ [ { x := avgX, y := avgY, vx := 2.0, alpha := 1, fadeStart := none } ]
    oxygen := none
    reactionInProgress := true
    pairQueue := []
    allowedPairId := none }

/-- Lines 174-213: oxygen update and collision with the target pair. -/
def updateOxygen (globalSpeed : ℚ) (s : State) : State :=
  match s.oxygen with
  | none => s
  | some o =>
    if o.active = true then
      let o1 := moveOxygen globalSpeed o
      match members o1.targetPairId s.hydrogen with
      | m0 :: m1 :: _ =>
        let avgX := (m0.x + m1.x) / 2
        let avgY := (m0.y + m1.y) / 2
        let dx := abs (o1.x - avgX)
        let dy := abs (o1.y - avgY)
        if dx < 40 ∧ dy < 40 then react o1 avgX avgY { s with oxygen := some o1 }
        else { s with oxygen := some o1 }
      | _ => { s with oxygen := some o1 }
    else s

/-- Line 224: the opacity assigned to a fading droplet. -/
def fadeAlpha (elapsed : ℚ) : ℚ := max 0 (1 - elapsed / 400)

/-- Line 222: the test `!w.fadeStart`, true for `null` and for the number `0`. -/
def fadeUnset (f : Option ℚ) : Bool :=
  match f with
  | none => true
  | some v => decide (v = 0)

/-- Running state of the water loop: the droplets kept so far (those at higher
indices), the number of `now()` calls made so far, and `reactionInProgress`. -/
structure WaterAcc where
  kept : List H2O
  reads : ℕ
  reactionInProgress : Bool

/-- Lines 217-230: one iteration of the water loop, for droplet `w`. -/
def stepWater (clock : ℕ → ℚ) (globalSpeed : ℚ) (w : H2O) (acc : WaterAcc) : WaterAcc :=
  let x1 := w.x + w.vx * globalSpeed
  if x1 ≥ returnX then
    let fs := if fadeUnset w.fadeStart then some (clock acc.reads) else w.fadeStart
    let r1 := if fadeUnset w.fadeStart then acc.reads + 1 else acc.reads
    let elapsed := clock r1 - fs.getD 0
    let a := fadeAlpha elapsed
    if a ≤ 0.02 then
      { kept := acc.kept, reads := r1 + 1, reactionInProgress := false }
    else
      { kept := { w with x := x1, fadeStart := fs, alpha := a } :: acc.kept
        reads := r1 + 1
        reactionInProgress := acc.reactionInProgress }
  else
    { acc with kept := { w with x := x1 } :: acc.kept }

/-- Lines 215-231: the water loop, which visits the droplets from the last index down
to the first. -/
def waterLoop (clock : ℕ → ℚ) (globalSpeed : ℚ) (ws : List H2O) (rip : Bool) : WaterAcc :=
  ws.foldr (stepWater clock globalSpeed) { kept := [], reads := 0, reactionInProgress := rip }

/-- Lines 215-231 as a state update. -/
def updateWater (clock : ℕ → ℚ) (globalSpeed : ℚ) (s : State) : State :=
  let r := waterLoop clock globalSpeed s.h2oList s.reactionInProgress
  { s with h2oList := r.kept, reactionInProgress := r.reactionInProgress }

/-- The function `updateEntities`. -/
def updateEntities (canvasWidth : ℕ) (clock : ℕ → ℚ) (globalSpeed : ℚ) (s : State) : State :=
  updateWater clock globalSpeed (updateOxygen globalSpeed (updateHydrogen canvasWidth globalSpeed s))

/-! ## The animation loop (script.js lines 338-346) -/

/-- What one frame reads from its environment: the clock value seen by
`createEntities`, the clock values seen by `updateEntities`, and `globalSpeed`. -/
structure Frame where
  t : ℚ
  clock : ℕ → ℚ
  globalSpeed : ℚ

/-- One call of `animate` while running: `createEntities(); updateEntities();`. -/
def tick (canvasWidth : ℕ) (f : Frame) (s : State) : State :=
  updateEntities canvasWidth f.clock f.globalSpeed (createEntities f.t s)

/-- Successive frames. -/
def run (canvasWidth : ℕ) : List Frame → State → State
  | [], s => s
  | f :: fs, s => run canvasWidth fs (tick canvasWidth f s)

/-- States at frame boundaries that the script can be in, for speed multipliers `≥ 0`. -/
inductive Reachable (canvasWidth : ℕ) : State → Prop
  | start (t0 : ℚ) : Reachable canvasWidth (init t0)
  | frame (f : Frame) (s : State) (hs : Reachable canvasWidth s) (hg : 0 ≤ f.globalSpeed) :
      Reachable canvasWidth (tick canvasWidth f s)

/-! ## Auxiliary definitions used in the statements -/

/-- The atoms are either absent or exactly the two twins of pair `id`. -/
def PairShape (id : ℕ) (hs : List Hydrogen) : Prop :=
  hs = [] ∨ ∃ a b, hs = [a, b] ∧ a.pairId = id ∧ b.pairId = id ∧ a.x = b.x ∧ a.vx = b.vx ∧
    a.ionized = b.ionized ∧ a.stopped = b.stopped

/-- Invariant of the frame loop. -/
structure Inv (s : State) : Prop where
  water : s.h2oList.length ≤ 1
  rip : s.reactionInProgress = true ↔ s.h2oList ≠ []
  oxy_rip : s.reactionInProgress = true → s.oxygen = none
  oxy : ∀ o, s.oxygen = some o → o.active = true ∧ s.allowedPairId = some o.targetPairId
  pairs : (s.pairQueue = [] ∧ s.allowedPairId = none ∧ s.hydrogen = []) ∨
    ∃ id, s.pairQueue = [id] ∧ s.allowedPairId = some id ∧ PairShape id s.hydrogen

/-- A state in which the admitted pair has no atom left, no oxygen exists and the queue
is still occupied. -/
def Stuck (s : State) : Prop :=
  s.pairQueue ≠ [] ∧ s.oxygen = none ∧ ∀ p ∈ s.hydrogen, some p.pairId ≠ s.allowedPairId

/-- Frame with speed multiplier 1000, which throws the fresh pair beyond the clean-up bound. -/
def stuckFrame : Frame := { t := 300, clock := fun _ => 300, globalSpeed := 1000 }

instance (s : State) : Decidable (Stuck s) := by
  unfold Stuck; infer_instance

/-- The oxygen object of lines 111-117 for target pair `a`. -/
def newOxygen (a : ℕ) : Oxygen :=
  { x := rightElectrode.x + rightElectrode.width - 8
    y := rightElectrode.y + rightElectrode.height / 2
    vx := -oxygenBaseSpeed
    active := true
    targetPairId := a }

/-- A pair is admitted by `createEntities` at clock reading `t`: a fresh pair id is
consumed. -/
def admitted (t : ℚ) (s : State) : Prop :=
  (createEntities t s).nextPairId ≠ s.nextPairId

instance (t : ℚ) (s : State) : Decidable (admitted t s) := by
  unfold admitted; infer_instance

/-- Clock readings of the frames of a run at which a pair is admitted, in order. -/
def admissionTimes (canvasWidth : ℕ) : List Frame → State → List ℚ
  | [], _ => []
  | f :: fs, s =>
    if admitted f.t s then f.t :: admissionTimes canvasWidth fs (tick canvasWidth f s)
    else admissionTimes canvasWidth fs (tick canvasWidth f s)

/-- Atom `q` is at the place of atom `p` and belongs to the same pair. -/
def SamePlaceH (p q : Hydrogen) : Prop := q.x = p.x ∧ q.y = p.y ∧ q.pairId = p.pairId

/-- Droplet `q` is at the place of droplet `p`. -/
def SamePlaceW (p q : H2O) : Prop := q.x = p.x ∧ q.y = p.y

/-- Every hydrogen atom, the oxygen and every droplet of `s2` is an entity of `s1`, in
the same order and at the same place; entities of `s1` may be missing from `s2`. -/
def PositionsHalted (s1 s2 : State) : Prop :=
  (∃ l, List.Sublist l s1.hydrogen ∧ List.Forall₂ SamePlaceH l s2.hydrogen) ∧
  (∀ o1 o2, s1.oxygen = some o1 → s2.oxygen = some o2 → o2.x = o1.x ∧ o2.y = o1.y) ∧
  (s1.h2oList ≠ [] →
    ∃ l, List.Sublist l s1.h2oList ∧ List.Forall₂ SamePlaceW l s2.h2oList)

/-- Frame used to overshoot the stop line: speed multiplier 250. -/
def overshootFrame : Frame := { t := 300, clock := fun _ => 300, globalSpeed := 250 }

/-- Frame with speed multiplier 0. -/
def haltFrame : Frame := { t := 300, clock := fun _ => 300, globalSpeed := 0 }

/-- Frame with speed multiplier 1.0. -/
def unitFrame : Frame := { t := 300, clock := fun _ => 300, globalSpeed := 1 }

/-- No atom is beyond the stop line, and the atoms that are not ionized yet are short of
the ionization line and still have their initial velocity. -/
def BelowStop (s : State) : Prop :=
  ∀ p ∈ s.hydrogen, (p.ionized = false → p.x + radius < ionizeX ∧ p.vx = baseSpeed) ∧
    (p.ionized = true → p.x ≤ stopX - radius)

/-- Number of hydrogen atoms carrying pair id `pid`. -/
def pairCount (pid : ℕ) (hs : List Hydrogen) : ℕ := hs.countP (fun h => h.pairId = pid)

/-- State in which the reaction is about to fire: the frame-266 state of the run at speed
1.0 after `createEntities`. -/
def preReaction : State := createEntities 300 (run 800 (List.replicate 266 unitFrame) (init 0))

/-- A droplet that started fading at clock reading 1000. -/
def fadingDroplet : H2O := { x := 700, y := 300, vx := 2.0, alpha := 1, fadeStart := some 1000 }

/-- State of the run at speed 1.0 after frame 267, the frame of the reaction. -/
def postReaction : State := run 800 (List.replicate 267 unitFrame) (init 0)

/-- The value of `postReaction`, written out. -/
def postReactionValue : State :=
  { hydrogen := [], lastPairTime := 300, nextPairId := 2, pairQueue := [],
    allowedPairId := none, oxygen := none, reactionInProgress := true,
    h2oList := [ { x := 522, y := 300, vx := 2.0, alpha := 1, fadeStart := none } ] }

/-- State of the run at speed 1.0 after frame 352, in which the droplet has just reached
`returnX` and started fading. -/
def fadingState : State := run 800 (List.replicate 85 unitFrame) postReaction

/-- The droplet of `fadingState`. -/
def reachedDroplet : H2O := { x := 692, y := 300, vx := 2.0, alpha := 1, fadeStart := some 300 }

/-- Frame at clock reading 400 with speed multiplier 1.0. -/
def fadeFrame : Frame := { t := 400, clock := fun _ => 400, globalSpeed := 1 }

/-! ## Lemmas and theorems -/

theorem ionizeX_eq : ionizeX = 262 := by
  norm_num [ionizeX, borderLeft, electrolyte, fuelCell]

theorem stopX_eq : stopX = 532 := by
  norm_num [stopX, borderRight, electrolyte, fuelCell]

theorem minX_eq : minX = 548 := by
  norm_num [minX, borderRight, electrolyte, fuelCell]

theorem returnX_eq : returnX = 692 := by
  norm_num [returnX, rightElectrode, fuelCell]

theorem moveHydrogen_pairId (a : Option ℕ) (g : ℚ) (p : Hydrogen) :
    (moveHydrogen a g p).pairId = p.pairId := by
  unfold moveHydrogen
  dsimp only
  split_ifs <;> rfl

theorem moveHydrogen_y (a : Option ℕ) (g : ℚ) (p : Hydrogen) :
    (moveHydrogen a g p).y = p.y := by
  unfold moveHydrogen
  dsimp only
  split_ifs <;> rfl

theorem moveHydrogen_other (a : Option ℕ) (g : ℚ) (p : Hydrogen) (h : some p.pairId ≠ a) :
    moveHydrogen a g p = p := by
  unfold moveHydrogen
  rw [if_neg h]

/-- Two atoms of the same pair that agree on `x`, `vx`, `ionized`, `stopped` still do so
after the loop body. -/
theorem moveHydrogen_twin (a : Option ℕ) (g : ℚ) (p q : Hydrogen)
    (hid : p.pairId = q.pairId) (hx : p.x = q.x) (hv : p.vx = q.vx)
    (hi : p.ionized = q.ionized) (hs : p.stopped = q.stopped) :
    (moveHydrogen a g p).x = (moveHydrogen a g q).x ∧
    (moveHydrogen a g p).vx = (moveHydrogen a g q).vx ∧
    (moveHydrogen a g p).ionized = (moveHydrogen a g q).ionized ∧
    (moveHydrogen a g p).stopped = (moveHydrogen a g q).stopped := by
  unfold moveHydrogen
  dsimp only
  rw [hid, hx, hv, hi]
  split_ifs <;> simp [hs, hx, hv, hi]

theorem inv_init (t0 : ℚ) : Inv (init t0) := by
  constructor <;> simp [init]

theorem inv_admitPair (t : ℚ) (s : State) (h : Inv s) : Inv (admitPair t s) := by
  unfold admitPair
  split_ifs with hc
  · obtain ⟨_, hq⟩ := hc
    have hq0 : s.pairQueue = [] := List.length_eq_zero.mp hq
    rcases h.pairs with ⟨_, ha, hh⟩ | ⟨id, hq1, _, _⟩
    · refine ⟨h.water, h.rip, h.oxy_rip, ?_, ?_⟩
      · intro o ho
        have := (h.oxy o ho).2
        simp [ha] at this
      · right
        dsimp only
        rw [hh, hq0]
        exact ⟨s.nextPairId, rfl, rfl, Or.inr ⟨_, _, rfl, rfl, rfl, rfl, rfl, rfl, rfl⟩⟩
    · simp [hq1] at hq0
  · exact h

theorem inv_spawnOxygen (s : State) (h : Inv s) : Inv (spawnOxygen s) := by
  unfold spawnOxygen
  split
  · next a ho hr ha =>
    split_ifs
    · refine ⟨h.water, h.rip, ?_, ?_, h.pairs⟩
      · intro hr1
        simp [hr] at hr1
      · intro o ho1
        simp at ho1
        subst ho1
        exact ⟨rfl, ha⟩
    · exact h
  · exact h

theorem pairShape_update (cw : ℕ) (g : ℚ) (id : ℕ) (a : Option ℕ) (hs : List Hydrogen)
    (h : PairShape id hs) :
    PairShape id ((hs.map (moveHydrogen a g)).filter
      (fun p => ¬ (p.x > (cw : ℚ) + 80))) := by
  rcases h with h | ⟨p, q, hpq, hp, hq, hx, hv, hi, hst⟩
  · left; simp [h]
  · obtain ⟨tx, tv, ti, ts⟩ := moveHydrogen_twin a g p q (hp.trans hq.symm) hx hv hi hst
    subst hpq
    by_cases hc : (moveHydrogen a g p).x > (cw : ℚ) + 80
    · left
      have hc2 : (moveHydrogen a g q).x > (cw : ℚ) + 80 := tx ▸ hc
      simp [List.filter, hc, hc2]
    · right
      have hc2 : ¬ (moveHydrogen a g q).x > (cw : ℚ) + 80 := tx ▸ hc
      refine ⟨moveHydrogen a g p, moveHydrogen a g q, ?_, ?_, ?_, tx, tv, ti, ts⟩
      · simp [List.filter, hc, hc2]
      · rw [moveHydrogen_pairId]; exact hp
      · rw [moveHydrogen_pairId]; exact hq

theorem inv_updateHydrogen (cw : ℕ) (g : ℚ) (s : State) (h : Inv s) :
    Inv (updateHydrogen cw g s) := by
  refine ⟨h.water, h.rip, h.oxy_rip, h.oxy, ?_⟩
  rcases h.pairs with ⟨hq, ha, hh⟩ | ⟨id, hq, ha, hh⟩
  · left
    exact ⟨hq, ha, by simp [updateHydrogen, hh]⟩
  · right
    exact ⟨id, hq, ha, pairShape_update cw g id _ _ hh⟩

theorem moveOxygen_target (g : ℚ) (o : Oxygen) :
    (moveOxygen g o).targetPairId = o.targetPairId ∧ (moveOxygen g o).active = o.active ∧
    (moveOxygen g o).y = o.y := by
  unfold moveOxygen
  dsimp only
  split_ifs <;> simp

theorem pairShape_removed (id : ℕ) (hs : List Hydrogen) (h : PairShape id hs) :
    hs.filter (fun h => ¬ (h.pairId = id)) = [] := by
  rcases h with h | ⟨p, q, hpq, hp, hq, _⟩
  · simp [h]
  · subst hpq
    simp [List.filter, hp, hq]

/-- The state `updateOxygen` returns: either only the oxygen moved, or the reaction fired. -/
theorem updateOxygen_cases (g : ℚ) (s : State) :
    updateOxygen g s = s ∨
    (∃ o, s.oxygen = some o ∧ o.active = true ∧
      updateOxygen g s = { s with oxygen := some (moveOxygen g o) }) ∨
    (∃ o ax ay, s.oxygen = some o ∧ o.active = true ∧
      updateOxygen g s = react (moveOxygen g o) ax ay { s with oxygen := some (moveOxygen g o) }) := by
  cases ho : s.oxygen with
  | none => left; simp [updateOxygen, ho]
  | some o =>
    by_cases hact : o.active = true
    · right
      cases hm : members (moveOxygen g o).targetPairId s.hydrogen with
      | nil => left; exact ⟨o, rfl, hact, by simp [updateOxygen, ho, hact, hm]⟩
      | cons m0 l =>
        cases l with
        | nil => left; exact ⟨o, rfl, hact, by simp [updateOxygen, ho, hact, hm]⟩
        | cons m1 l2 =>
          by_cases hd : abs ((moveOxygen g o).x - (m0.x + m1.x) / 2) < 40 ∧
              abs ((moveOxygen g o).y - (m0.y + m1.y) / 2) < 40
          · right
            exact ⟨o, (m0.x + m1.x) / 2, (m0.y + m1.y) / 2, rfl, hact,
              by simp only [updateOxygen, ho, hact, hm, if_pos hd, if_true]⟩
          · left
            exact ⟨o, rfl, hact, by simp only [updateOxygen, ho, hact, hm, if_neg hd, if_true]⟩
    · left; simp [updateOxygen, ho, hact]

theorem inv_updateOxygen (g : ℚ) (s : State) (h : Inv s) : Inv (updateOxygen g s) := by
  rcases updateOxygen_cases g s with he | ⟨o, ho, hact, he⟩ | ⟨o, ax, ay, ho, hact, he⟩
  · rw [he]; exact h
  · rw [he]
    refine ⟨h.water, h.rip, ?_, ?_, h.pairs⟩
    · intro hr
      have := h.oxy_rip hr
      simp [ho] at this
    · intro o1 ho1
      simp at ho1
      subst ho1
      obtain ⟨h1, h2, _⟩ := moveOxygen_target g o
      rw [h1, h2]
      exact h.oxy o ho
  · rw [he]
    have hr : s.reactionInProgress = false := by
      by_contra hr
      have := h.oxy_rip (by simpa using hr)
      simp [ho] at this
    have hw : s.h2oList = [] := by
      by_contra hw
      have := h.rip.mpr hw
      simp [hr] at this
    refine ⟨by simp [react, hw], by simp [react], by simp [react], by simp [react], ?_⟩
    left
    refine ⟨rfl, rfl, ?_⟩
    rcases h.pairs with ⟨_, ha, _⟩ | ⟨id, _, ha, hh⟩
    · have := (h.oxy o ho).2
      simp [ha] at this
    · have h2 := (h.oxy o ho).2
      rw [ha] at h2
      have h3 : id = o.targetPairId := by simpa using h2
      simp only [react]
      rw [(moveOxygen_target g o).1, ← h3]
      exact pairShape_removed id _ hh

theorem inv_updateWater (clock : ℕ → ℚ) (g : ℚ) (s : State) (h : Inv s) :
    Inv (updateWater clock g s) := by
  have hw := h.water
  have hrip := h.rip
  have horip := h.oxy_rip
  unfold updateWater
  match hl : s.h2oList with
  | [] =>
    rw [hl] at hrip
    refine ⟨by simp [waterLoop], by simpa [waterLoop] using hrip, ?_, h.oxy, h.pairs⟩
    simpa [waterLoop] using horip
  | [w] =>
    rw [hl] at hrip
    have hr : s.reactionInProgress = true := hrip.mpr (by simp)
    simp only [waterLoop, List.foldr, stepWater]
    split_ifs <;> refine ⟨by simp, by simp [hr], ?_, h.oxy, h.pairs⟩ <;> simp [hr, horip hr]
  | _ :: _ :: _ =>
    rw [hl] at hw
    simp at hw

theorem inv_createEntities (t : ℚ) (s : State) (h : Inv s) : Inv (createEntities t s) :=
  inv_spawnOxygen _ (inv_admitPair t s h)

theorem inv_updateEntities (cw : ℕ) (clock : ℕ → ℚ) (g : ℚ) (s : State) (h : Inv s) :
    Inv (updateEntities cw clock g s) :=
  inv_updateWater clock g _ (inv_updateOxygen g _ (inv_updateHydrogen cw g s h))

theorem inv_tick (cw : ℕ) (f : Frame) (s : State) (h : Inv s) : Inv (tick cw f s) :=
  inv_updateEntities cw f.clock f.globalSpeed _ (inv_createEntities f.t s h)

theorem inv_reachable (cw : ℕ) (s : State) (h : Reachable cw s) : Inv s := by
  induction h with
  | start t0 => exact inv_init t0
  | frame f s _ _ ih => exact inv_tick cw f s ih

theorem foldl_count_none (a : ℕ) (hs : List Hydrogen) (c : ℕ)
    (h : ∀ p ∈ hs, p.pairId ≠ a) :
    hs.foldl (fun c h => if h.pairId = a ∧ h.ionized = true then c + 1 else c) c = c := by
  induction hs generalizing c with
  | nil => rfl
  | cons p ps ih =>
    have hp : p.pairId ≠ a := h p (List.mem_cons_self _ _)
    simp only [List.foldl_cons, hp, false_and, if_false]
    exact ih c (fun q hq => h q (List.mem_cons_of_mem _ hq))

theorem stuck_admitPair (t : ℚ) (s : State) (h : s.pairQueue ≠ []) : admitPair t s = s := by
  unfold admitPair
  have : ¬ s.pairQueue.length = 0 := fun h0 => h (List.length_eq_zero.mp h0)
  simp [this]

theorem stuck_spawnOxygen (s : State) (h : Stuck s) : spawnOxygen s = s := by
  obtain ⟨_, _, hh⟩ := h
  unfold spawnOxygen
  split
  · next a ho hr ha =>
    have hc : ionizedCount a s.hydrogen = 0 := by
      unfold ionizedCount
      apply foldl_count_none
      intro p hp hpa
      exact hh p hp (by rw [ha, hpa])
    simp [hc]
  · rfl

theorem stuck_createEntities (t : ℚ) (s : State) (h : Stuck s) : createEntities t s = s := by
  unfold createEntities
  rw [stuck_admitPair t s h.1, stuck_spawnOxygen s h]

theorem stuck_moved (a : Option ℕ) (g : ℚ) (hs : List Hydrogen)
    (h : ∀ p ∈ hs, some p.pairId ≠ a) : hs.map (moveHydrogen a g) = hs := by
  induction hs with
  | nil => rfl
  | cons p ps ih =>
    rw [List.map_cons, moveHydrogen_other a g p (h p (List.mem_cons_self _ _)),
      ih (fun q hq => h q (List.mem_cons_of_mem _ hq))]

theorem stuck_updateHydrogen (cw : ℕ) (g : ℚ) (s : State) (h : Stuck s) :
    Stuck (updateHydrogen cw g s) ∧
    updateHydrogen cw g s =
      { s with hydrogen := s.hydrogen.filter (fun p => ¬ (p.x > (cw : ℚ) + 80)) } := by
  obtain ⟨hq, ho, hh⟩ := h
  have he : updateHydrogen cw g s =
      { s with hydrogen := s.hydrogen.filter (fun p => ¬ (p.x > (cw : ℚ) + 80)) } := by
    unfold updateHydrogen
    dsimp only
    rw [stuck_moved _ g _ hh]
  refine ⟨?_, he⟩
  rw [he]
  exact ⟨hq, ho, fun p hp => hh p (List.mem_filter.mp hp).1⟩

theorem updateOxygen_none (g : ℚ) (s : State) (h : s.oxygen = none) : updateOxygen g s = s := by
  unfold updateOxygen
  rw [h]

theorem stepWater_length (clock : ℕ → ℚ) (g : ℚ) (w : H2O) (acc : WaterAcc) :
    (stepWater clock g w acc).kept.length ≤ acc.kept.length + 1 := by
  unfold stepWater
  dsimp only
  split_ifs <;> simp

theorem waterLoop_length (clock : ℕ → ℚ) (g : ℚ) (ws : List H2O) (rip : Bool) :
    (waterLoop clock g ws rip).kept.length ≤ ws.length := by
  unfold waterLoop
  induction ws with
  | nil => simp
  | cons w ws ih =>
    rw [List.foldr_cons, List.length_cons]
    exact le_trans (stepWater_length clock g w _) (Nat.succ_le_succ ih)

theorem stuck_tick (cw : ℕ) (f : Frame) (s : State) (h : Stuck s) :
    Stuck (tick cw f s) ∧ (tick cw f s).pairQueue = s.pairQueue ∧
    (tick cw f s).allowedPairId = s.allowedPairId ∧
    (tick cw f s).nextPairId = s.nextPairId ∧
    (tick cw f s).lastPairTime = s.lastPairTime ∧
    (tick cw f s).h2oList.length ≤ s.h2oList.length := by
  obtain ⟨hst, he⟩ := stuck_updateHydrogen cw f.globalSpeed s h
  have ht : tick cw f s = updateWater f.clock f.globalSpeed (updateHydrogen cw f.globalSpeed s) := by
    unfold tick updateEntities
    rw [stuck_createEntities f.t s h, updateOxygen_none _ _ hst.2.1]
  rw [ht]
  refine ⟨?_, rfl, ?_, ?_, ?_, ?_⟩
  · exact ⟨hst.1, hst.2.1, hst.2.2⟩
  · rw [he]; rfl
  · rw [he]; rfl
  · rw [he]; rfl
  · rw [he]
    exact waterLoop_length _ _ _ _

theorem stuck_run (cw : ℕ) (fs : List Frame) (s : State) (h : Stuck s) :
    Stuck (run cw fs s) ∧ (run cw fs s).pairQueue = s.pairQueue ∧
    (run cw fs s).allowedPairId = s.allowedPairId ∧
    (run cw fs s).nextPairId = s.nextPairId ∧
    (run cw fs s).lastPairTime = s.lastPairTime ∧
    (run cw fs s).h2oList.length ≤ s.h2oList.length := by
  induction fs generalizing s with
  | nil => exact ⟨h, rfl, rfl, rfl, rfl, le_refl _⟩
  | cons f fs ih =>
    obtain ⟨h1, h2, h3, h4, h5, h6⟩ := stuck_tick cw f s h
    obtain ⟨k1, k2, k3, k4, k5, k6⟩ := ih (tick cw f s) h1
    exact ⟨k1, k2.trans h2, k3.trans h3, k4.trans h4, k5.trans h5, le_trans k6 h6⟩

/-- Claim C10: a state with a non-empty `pairQueue`, no oxygen and no atom of the
admitted pair is absorbing. After any run of frames (any clock readings, any speed
multipliers) the state is again of that kind, `pairQueue`, `allowedPairId` and
`nextPairId` are unchanged, `createEntities` changes nothing (no admission, no oxygen),
the oxygen block of `updateEntities` changes nothing (no reaction), and the number of
droplets has not grown. -/
theorem stuck_absorbing (cw : ℕ) (s : State) (h : Stuck s) (fs : List Frame) (f : Frame) :
    Stuck (run cw fs s) ∧
    (run cw fs s).pairQueue = s.pairQueue ∧
    (run cw fs s).allowedPairId = s.allowedPairId ∧
    createEntities f.t (run cw fs s) = run cw fs s ∧
    updateOxygen f.globalSpeed (updateHydrogen cw f.globalSpeed (createEntities f.t (run cw fs s))) =
      updateHydrogen cw f.globalSpeed (createEntities f.t (run cw fs s)) ∧
    (run cw fs s).nextPairId = s.nextPairId ∧
    (run cw fs s).h2oList.length ≤ s.h2oList.length := by
  obtain ⟨k1, k2, k3, k4, _, k6⟩ := stuck_run cw fs s h
  have hc := stuck_createEntities f.t _ k1
  refine ⟨k1, k2, k3, hc, ?_, k4, k6⟩
  rw [hc]
  exact updateOxygen_none _ _ (stuck_updateHydrogen cw f.globalSpeed _ k1).1.2.1

/-- After one frame at speed multiplier 1000 the fresh pair is discarded; the state is stuck
and stays so for two more frames. -/
theorem stuck_absorbing_witness :
    Reachable 800 (tick 800 stuckFrame (init 0)) ∧ Stuck (tick 800 stuckFrame (init 0)) ∧
    (run 800 [stuckFrame, stuckFrame] (tick 800 stuckFrame (init 0))).pairQueue = [1] :=
  ⟨Reachable.frame _ _ (Reachable.start 0) (by norm_num [stuckFrame]), by decide!,
   ((stuck_absorbing 800 _ (by decide!) [stuckFrame, stuckFrame] stuckFrame).2.1).trans (by decide!)⟩

theorem ionizedCount_eq_countP (a : ℕ) (hs : List Hydrogen) :
    ionizedCount a hs = hs.countP (fun h => h.pairId = a ∧ h.ionized = true) := by
  unfold ionizedCount
  suffices h : ∀ c, hs.foldl (fun c h => if h.pairId = a ∧ h.ionized = true then c + 1 else c) c =
      c + hs.countP (fun h => h.pairId = a ∧ h.ionized = true) by simpa using h 0
  induction hs with
  | nil => intro c; simp
  | cons p ps ih =>
    intro c
    rw [List.foldl_cons, ih, List.countP_cons]
    by_cases h1 : p.pairId = a ∧ p.ionized = true
    · simp only [h1, and_self, if_true, decide_True]
      omega
    · simp only [h1, if_false, decide_False, Bool.false_eq_true]
      omega

theorem spawnOxygen_frame (s : State) :
    (spawnOxygen s).hydrogen = s.hydrogen ∧ (spawnOxygen s).lastPairTime = s.lastPairTime ∧
    (spawnOxygen s).nextPairId = s.nextPairId ∧ (spawnOxygen s).pairQueue = s.pairQueue ∧
    (spawnOxygen s).allowedPairId = s.allowedPairId ∧
    (spawnOxygen s).reactionInProgress = s.reactionInProgress ∧
    (spawnOxygen s).h2oList = s.h2oList := by
  unfold spawnOxygen
  split
  · split_ifs <;> simp
  · simp

theorem admitPair_frame (t : ℚ) (s : State) :
    (admitPair t s).oxygen = s.oxygen ∧
    (admitPair t s).reactionInProgress = s.reactionInProgress ∧
    (admitPair t s).h2oList = s.h2oList := by
  unfold admitPair
  split_ifs <;> simp

/-- Characterisation of `spawnOxygen` on the oxygen field. -/
theorem spawnOxygen_oxygen (s : State) :
    (spawnOxygen s).oxygen =
      if s.oxygen = none ∧ s.reactionInProgress = false ∧
          ∃ a, s.allowedPairId = some a ∧
            2 ≤ s.hydrogen.countP (fun h => h.pairId = a ∧ h.ionized = true) then
        (s.allowedPairId.map newOxygen)
      else s.oxygen := by
  unfold spawnOxygen
  split
  · next a ho hr ha =>
    rw [ionizedCount_eq_countP]
    by_cases hc : 2 ≤ s.hydrogen.countP (fun h => h.pairId = a ∧ h.ionized = true)
    · rw [if_pos hc, if_pos ⟨ho, hr, a, ha, hc⟩, ha]
      rfl
    · rw [if_neg hc, if_neg]
      rintro ⟨_, _, b, hb, hcb⟩
      rw [ha] at hb
      cases hb
      exact hc hcb
  · next hne =>
    rw [if_neg]
    rintro ⟨ho, hr, a, ha, _⟩
    exact hne a ho hr ha

/-- An oxygen particle that exists is left unchanged by `createEntities`. -/
theorem createEntities_oxygen_some (t : ℚ) (s : State) (o : Oxygen) (ho : s.oxygen = some o) :
    (createEntities t s).oxygen = some o := by
  unfold createEntities
  rw [spawnOxygen_oxygen, if_neg, (admitPair_frame t s).1, ho]
  rintro ⟨h1, _⟩
  rw [(admitPair_frame t s).1, ho] at h1
  cases h1

/-- Claim C3: `createEntities` turns the oxygen from absent into present exactly when,
after the admission step of the same call, no oxygen exists, `reactionInProgress` is
false, `allowedPairId` is some `a` and at least two atoms of pair `a` are ionized. A
created oxygen is at x = rightElectrode.x + rightElectrode.width - 8 = 690,
y = 300, with vx = -oxygenBaseSpeed = -0.7, active, targeting the admitted pair; an
oxygen that already exists is left unchanged. -/
theorem oxygen_spawn_iff (t : ℚ) (s : State) :
    ((s.oxygen = none ∧ (createEntities t s).oxygen ≠ none) ↔
      ((admitPair t s).oxygen = none ∧ (admitPair t s).reactionInProgress = false ∧
        ∃ a, (admitPair t s).allowedPairId = some a ∧
          2 ≤ (admitPair t s).hydrogen.countP (fun h => h.pairId = a ∧ h.ionized = true))) ∧
    (∀ o, s.oxygen = none → (createEntities t s).oxygen = some o →
      o.x = rightElectrode.x + rightElectrode.width - 8 ∧ o.x = 690 ∧
      o.y = rightElectrode.y + rightElectrode.height / 2 ∧ o.y = 300 ∧
      o.vx = -oxygenBaseSpeed ∧ o.vx = -0.7 ∧ o.active = true ∧
      (admitPair t s).allowedPairId = some o.targetPairId ∧
      (createEntities t s).allowedPairId = some o.targetPairId) ∧
    (∀ o, s.oxygen = some o → (createEntities t s).oxygen = some o) := by
  have hox := (admitPair_frame t s).1
  have hsp := spawnOxygen_oxygen (admitPair t s)
  have hal := (spawnOxygen_frame (admitPair t s)).2.2.2.2.1
  refine ⟨?_, ?_, ?_⟩
  · constructor
    · rintro ⟨h0, h1⟩
      by_contra hc
      unfold createEntities at h1
      rw [hsp, if_neg hc, hox] at h1
      exact h1 h0
    · intro hc
      refine ⟨hox ▸ hc.1, ?_⟩
      unfold createEntities
      rw [hsp, if_pos hc]
      obtain ⟨_, _, a, ha, _⟩ := hc
      simp [ha]
  · intro o h0 ho
    unfold createEntities at ho
    rw [hsp] at ho
    split_ifs at ho with hc
    · obtain ⟨_, _, a, ha, _⟩ := hc
      rw [ha] at ho
      simp at ho
      subst ho
      refine ⟨rfl, ?_, rfl, ?_, rfl, ?_, rfl, ha, hal.trans ha⟩
      · norm_num [newOxygen, rightElectrode, fuelCell]
      · norm_num [newOxygen, rightElectrode, fuelCell]
      · norm_num [newOxygen, oxygenBaseSpeed]
    · rw [hox, h0] at ho
      cases ho
  · intro o ho
    unfold createEntities
    rw [hsp, if_neg, hox, ho]
    rintro ⟨h1, _⟩
    rw [hox, ho] at h1
    cases h1

theorem updateEntities_clockFields (cw : ℕ) (clock : ℕ → ℚ) (g : ℚ) (s : State) :
    (updateEntities cw clock g s).lastPairTime = s.lastPairTime ∧
    (updateEntities cw clock g s).nextPairId = s.nextPairId := by
  unfold updateEntities updateWater
  dsimp only
  rcases updateOxygen_cases g (updateHydrogen cw g s) with he | ⟨o, _, _, he⟩ | ⟨o, ax, ay, _, _, he⟩ <;>
    rw [he] <;> exact ⟨rfl, rfl⟩

theorem admitted_iff (t : ℚ) (s : State) :
    admitted t s ↔ s.pairQueue = [] ∧ t - s.lastPairTime ≥ gapMs := by
  unfold admitted createEntities
  rw [(spawnOxygen_frame _).2.2.1]
  unfold admitPair
  split_ifs with hc
  · simp only [ne_eq, Nat.succ_ne_self, not_false_eq_true, true_iff]
    exact ⟨List.length_eq_zero.mp hc.2, hc.1⟩
  · simp only [ne_eq, not_true_eq_false, false_iff]
    rintro ⟨h1, h2⟩
    exact hc ⟨h2, by rw [h1]; rfl⟩

theorem createEntities_whenAdmitted (t : ℚ) (s : State) (h : admitted t s) :
    (createEntities t s).hydrogen = s.hydrogen ++
      [ { x := leftElectrode.x + 6, y := leftElectrode.y + leftElectrode.height / 2 - pairGapY,
          vx := baseSpeed, ionized := false, stopped := false, label := "H",
          pairId := s.nextPairId },
        { x := leftElectrode.x + 6, y := leftElectrode.y + leftElectrode.height / 2 + pairGapY,
          vx := baseSpeed, ionized := false, stopped := false, label := "H",
          pairId := s.nextPairId } ] ∧
    (createEntities t s).nextPairId = s.nextPairId + 1 ∧
    (createEntities t s).pairQueue = [s.nextPairId] ∧
    (createEntities t s).allowedPairId = some s.nextPairId ∧
    (createEntities t s).lastPairTime = t := by
  obtain ⟨hq, hg⟩ := (admitted_iff t s).mp h
  obtain ⟨f1, f2, f3, f4, f5, _, _⟩ := spawnOxygen_frame (admitPair t s)
  unfold createEntities
  rw [f1, f2, f3, f4, f5]
  have hc : t - s.lastPairTime ≥ gapMs ∧ s.pairQueue.length = 0 := ⟨hg, by rw [hq]; rfl⟩
  unfold admitPair
  rw [if_pos hc]
  dsimp only
  rw [hq]
  exact ⟨rfl, rfl, rfl, rfl, rfl⟩

theorem createEntities_notAdmitted (t : ℚ) (s : State) (h : ¬ admitted t s) :
    (createEntities t s).hydrogen = s.hydrogen ∧
    (createEntities t s).pairQueue = s.pairQueue ∧
    (createEntities t s).allowedPairId = s.allowedPairId ∧
    (createEntities t s).nextPairId = s.nextPairId ∧
    (createEntities t s).lastPairTime = s.lastPairTime := by
  have hc : ¬ (t - s.lastPairTime ≥ gapMs ∧ s.pairQueue.length = 0) := by
    rintro ⟨h1, h2⟩
    exact h ((admitted_iff t s).mpr ⟨List.length_eq_zero.mp h2, h1⟩)
  obtain ⟨f1, f2, f3, f4, f5, _, _⟩ := spawnOxygen_frame (admitPair t s)
  unfold createEntities
  rw [f1, f2, f3, f4, f5]
  unfold admitPair
  rw [if_neg hc]
  exact ⟨rfl, rfl, rfl, rfl, rfl⟩

theorem admissionTimes_chain (cw : ℕ) (fs : List Frame) (s : State) :
    List.Chain (fun a b => b - a ≥ gapMs) s.lastPairTime (admissionTimes cw fs s) := by
  induction fs generalizing s with
  | nil => exact List.Chain.nil
  | cons f fs ih =>
    have hl := (updateEntities_clockFields cw f.clock f.globalSpeed (createEntities f.t s)).1
    unfold admissionTimes
    split_ifs with ha
    · refine List.Chain.cons ((admitted_iff f.t s).mp ha).2 ?_
      have := ih (tick cw f s)
      unfold tick at this
      rw [hl, (createEntities_whenAdmitted f.t s ha).2.2.2.2] at this
      exact this
    · have := ih (tick cw f s)
      unfold tick at this
      rw [hl, (createEntities_notAdmitted f.t s ha).2.2.2.2] at this
      exact this

/-- Claim C4: `createEntities` admits a pair at clock reading `t` exactly when `pairQueue`
is empty and `t - lastPairTime ≥ gapMs = 3000`. On admission two atoms with the old
`nextPairId` are appended at x = 108, y = 275 and y = 325, with vx = 1.2, not ionized, not
stopped; `nextPairId` is incremented, `pairQueue` becomes the one-element list of the new
id, `allowedPairId` the new id and `lastPairTime` becomes `t`. Otherwise these five
globals are unchanged. In any run, successive admission times are at least `gapMs`
apart. -/
theorem admission_contract (cw : ℕ) (t : ℚ) (s : State) (fs : List Frame) :
    (admitted t s ↔ s.pairQueue = [] ∧ t - s.lastPairTime ≥ gapMs) ∧
    gapMs = 3000 ∧
    (admitted t s →
      (createEntities t s).hydrogen = s.hydrogen ++
        [ { x := 108, y := 275, vx := 1.2, ionized := false, stopped := false, label := "H",
            pairId := s.nextPairId },
          { x := 108, y := 325, vx := 1.2, ionized := false, stopped := false, label := "H",
            pairId := s.nextPairId } ] ∧
      (createEntities t s).nextPairId = s.nextPairId + 1 ∧
      (createEntities t s).pairQueue = [s.nextPairId] ∧
      (createEntities t s).allowedPairId = some s.nextPairId ∧
      (createEntities t s).lastPairTime = t) ∧
    (¬ admitted t s →
      (createEntities t s).hydrogen = s.hydrogen ∧
      (createEntities t s).pairQueue = s.pairQueue ∧
      (createEntities t s).allowedPairId = s.allowedPairId ∧
      (createEntities t s).nextPairId = s.nextPairId ∧
      (createEntities t s).lastPairTime = s.lastPairTime) ∧
    List.Chain' (fun a b => b - a ≥ gapMs) (admissionTimes cw fs s) := by
  refine ⟨admitted_iff t s, rfl, ?_, createEntities_notAdmitted t s, ?_⟩
  · intro h
    have := createEntities_whenAdmitted t s h
    norm_num [leftElectrode, fuelCell, pairGapY, baseSpeed] at this
    norm_num
    exact this
  · have h := admissionTimes_chain cw fs s
    cases hl : admissionTimes cw fs s with
    | nil => exact List.chain'_nil
    | cons a l =>
      rw [hl] at h
      exact List.chain_of_chain_cons h

theorem filter_moved_other (a : Option ℕ) (g : ℚ) (hs : List Hydrogen) :
    (hs.map (moveHydrogen a g)).filter (fun p => some p.pairId ≠ a) =
      hs.filter (fun p => some p.pairId ≠ a) := by
  induction hs with
  | nil => rfl
  | cons p ps ih =>
    rw [List.map_cons, List.filter_cons, List.filter_cons, ih, moveHydrogen_pairId]
    by_cases hp : some p.pairId = a
    · simp [hp]
    · simp [hp, moveHydrogen_other a g p hp]

theorem updateOxygen_hydrogen_sublist (g : ℚ) (s : State) :
    List.Sublist (updateOxygen g s).hydrogen s.hydrogen := by
  rcases updateOxygen_cases g s with he | ⟨o, _, _, he⟩ | ⟨o, ax, ay, _, _, he⟩
  · rw [he]
  · rw [he]
  · rw [he]
    exact List.filter_sublist _

/-- Claim C5: for every state and speed multiplier, the atoms that `updateEntities`
leaves in the list and whose pair id differs from `allowedPairId` form, in order, a
sublist of the atoms of that kind before the call: each of them is an atom that was
there before, with every field (position, velocity, flags, label) unchanged. -/
theorem frozen_unless_admitted (cw : ℕ) (clock : ℕ → ℚ) (g : ℚ) (s : State) :
    List.Sublist
      ((updateEntities cw clock g s).hydrogen.filter (fun p => some p.pairId ≠ s.allowedPairId))
      (s.hydrogen.filter (fun p => some p.pairId ≠ s.allowedPairId)) ∧
    ∀ p ∈ (updateEntities cw clock g s).hydrogen, some p.pairId ≠ s.allowedPairId →
      p ∈ s.hydrogen := by
  have h1 : List.Sublist (updateEntities cw clock g s).hydrogen
      ((s.hydrogen.map (moveHydrogen s.allowedPairId g)).filter
        (fun p => ¬ (p.x > (cw : ℚ) + 80))) :=
    updateOxygen_hydrogen_sublist g (updateHydrogen cw g s)
  have h2 := (h1.trans (List.filter_sublist _)).filter (fun p => some p.pairId ≠ s.allowedPairId)
  rw [filter_moved_other] at h2
  refine ⟨h2, ?_⟩
  intro p hp hne
  have : p ∈ (updateEntities cw clock g s).hydrogen.filter
      (fun p => some p.pairId ≠ s.allowedPairId) := by
    rw [List.mem_filter]
    exact ⟨hp, by simpa using hne⟩
  exact (List.mem_filter.mp (h2.subset this)).1

theorem fadeAlpha_antitone (e1 e2 : ℚ) (h : e1 ≤ e2) : fadeAlpha e2 ≤ fadeAlpha e1 := by
  unfold fadeAlpha
  apply max_le_max (le_refl _)
  linarith [div_le_div_of_nonneg_right h (by norm_num : (0 : ℚ) ≤ 400)]

theorem fadeAlpha_done (e : ℚ) (h : 400 ≤ e) : fadeAlpha e = 0 := by
  unfold fadeAlpha
  apply max_eq_left
  have : 1 ≤ e / 400 := by
    rw [le_div_iff₀ (by norm_num)]
    linarith
  linarith

/-- One iteration of the water loop on a droplet that is already fading. -/
theorem stepWater_fading (clock : ℕ → ℚ) (g : ℚ) (w : H2O) (acc : WaterAcc) (f : ℚ)
    (hx : returnX ≤ w.x) (hf : w.fadeStart = some f) (hf0 : f ≠ 0) (hv : 0 ≤ w.vx)
    (hg : 0 ≤ g) :
    stepWater clock g w acc =
      if fadeAlpha (clock acc.reads - f) ≤ 0.02 then
        { kept := acc.kept, reads := acc.reads + 1, reactionInProgress := false }
      else
        { kept := { w with x := w.x + w.vx * g, alpha := fadeAlpha (clock acc.reads - f) } ::
            acc.kept
          reads := acc.reads + 1
          reactionInProgress := acc.reactionInProgress } := by
  have hx1 : w.x + w.vx * g ≥ returnX := by
    have := mul_nonneg hv hg
    linarith
  have hu : fadeUnset (some f) = false := by
    simp [fadeUnset, hf0]
  unfold stepWater
  dsimp only
  rw [if_pos hx1]
  simp only [hf, hu, Bool.false_eq_true, if_false, Option.getD_some]

theorem stepFold_kept (clock : ℕ → ℚ) (g : ℚ) (ws : List H2O) (acc : WaterAcc) :
    ∃ l, (ws.foldr (stepWater clock g) acc).kept = l ++ acc.kept ∧ l.length ≤ ws.length := by
  induction ws with
  | nil => exact ⟨[], rfl, le_refl _⟩
  | cons w ws ih =>
    obtain ⟨l, hl, hn⟩ := ih
    rw [List.foldr_cons]
    generalize List.foldr (stepWater clock g) acc ws = a at hl
    unfold stepWater
    dsimp only
    split_ifs
    all_goals first
      | exact ⟨l, hl, Nat.le_succ_of_le hn⟩
      | exact ⟨_ :: l, by rw [hl]; rfl, Nat.succ_le_succ hn⟩

theorem stepFold_cleared (clock : ℕ → ℚ) (g : ℚ) (ws : List H2O) (acc : WaterAcc)
    (h : acc.reactionInProgress = false) :
    (ws.foldr (stepWater clock g) acc).reactionInProgress = false := by
  induction ws with
  | nil => exact h
  | cons w ws ih =>
    rw [List.foldr_cons]
    generalize List.foldr (stepWater clock g) acc ws = a at ih
    unfold stepWater
    dsimp only
    split_ifs <;> first | rfl | exact ih

theorem updateEntities_water (cw : ℕ) (clock : ℕ → ℚ) (g : ℚ) (s : State)
    (ho : s.oxygen = none) :
    (updateEntities cw clock g s).h2oList = (updateWater clock g s).h2oList ∧
    (updateEntities cw clock g s).reactionInProgress =
      (updateWater clock g s).reactionInProgress := by
  have h1 : (updateHydrogen cw g s).oxygen = none := ho
  unfold updateEntities
  rw [updateOxygen_none _ _ h1]
  exact ⟨rfl, rfl⟩

theorem createEntities_water (t : ℚ) (s : State) :
    (createEntities t s).h2oList = s.h2oList ∧
    (createEntities t s).reactionInProgress = s.reactionInProgress := by
  unfold createEntities
  rw [(spawnOxygen_frame _).2.2.2.2.2.2, (spawnOxygen_frame _).2.2.2.2.2.1,
    (admitPair_frame t s).2.2, (admitPair_frame t s).2.1]
  exact ⟨rfl, rfl⟩

theorem tick_water (cw : ℕ) (fr : Frame) (s : State) (hr : Reachable cw s)
    (hw : s.h2oList ≠ []) :
    (tick cw fr s).h2oList = (updateWater fr.clock fr.globalSpeed s).h2oList ∧
    (tick cw fr s).reactionInProgress =
      (updateWater fr.clock fr.globalSpeed s).reactionInProgress := by
  have hinv := inv_createEntities fr.t s (inv_reachable cw s hr)
  obtain ⟨c1, c2⟩ := createEntities_water fr.t s
  have hno : (createEntities fr.t s).oxygen = none :=
    hinv.oxy_rip (hinv.rip.mpr (by rw [c1]; exact hw))
  obtain ⟨u1, u2⟩ := updateEntities_water cw fr.clock fr.globalSpeed _ hno
  unfold tick
  rw [u1, u2]
  unfold updateWater
  dsimp only
  rw [c1, c2]
  exact ⟨rfl, rfl⟩

theorem updateWater_fading (clock : ℕ → ℚ) (g : ℚ) (w : H2O) (f : ℚ) (s : State)
    (hx : returnX ≤ w.x) (hf : w.fadeStart = some f) (hf0 : f ≠ 0) (hv : 0 ≤ w.vx)
    (hg : 0 ≤ g) (hw : s.h2oList = [w]) :
    (0.02 < fadeAlpha (clock 0 - f) →
      (updateWater clock g s).h2oList =
        [ { w with x := w.x + w.vx * g, alpha := fadeAlpha (clock 0 - f) } ] ∧
      (updateWater clock g s).reactionInProgress = s.reactionInProgress) ∧
    (fadeAlpha (clock 0 - f) ≤ 0.02 →
      (updateWater clock g s).h2oList = [] ∧
      (updateWater clock g s).reactionInProgress = false) := by
  constructor
  · intro h
    unfold updateWater waterLoop
    rw [hw, List.foldr_cons, List.foldr_nil, stepWater_fading clock g w _ f hx hf hf0 hv hg]
    dsimp only
    rw [if_neg (not_le.mpr h)]
    exact ⟨rfl, rfl⟩
  · intro h
    unfold updateWater waterLoop
    rw [hw, List.foldr_cons, List.foldr_nil, stepWater_fading clock g w _ f hx hf hf0 hv hg]
    dsimp only
    rw [if_pos h]
    exact ⟨rfl, rfl⟩

/-- Claim C6: for a droplet that is already fading (x ≥ returnX = 692, a non-zero
`fadeStart = f`, rightward velocity) and a non-negative speed multiplier, the water loop
assigns the opacity `max 0 (1 - elapsed / 400)` with `elapsed = now - f`. The
droplet is kept with that opacity when it exceeds 0.02 and is removed, with
`reactionInProgress` cleared, otherwise; the outcome is the same for every non-negative
speed multiplier; the opacity is non-increasing in `elapsed` and at most 0.02 whenever
`elapsed ≥ 400`, in which case the droplet is removed and `reactionInProgress` is false.
This is stated for one iteration of the loop, for the droplet at any position of the
list the loop runs over, for `updateWater` and `updateEntities` on a state whose only
droplet it is, and for a whole frame from a reachable state. -/
theorem fade_is_wall_clock (clock : ℕ → ℚ) (g : ℚ) (w : H2O) (acc : WaterAcc) (f : ℚ)
    (hx : returnX ≤ w.x) (hf : w.fadeStart = some f) (hf0 : f ≠ 0) (hv : 0 ≤ w.vx)
    (hg : 0 ≤ g) :
    returnX = 692 ∧
    (∀ e, fadeAlpha e = max 0 (1 - e / 400)) ∧
    (0.02 < fadeAlpha (clock acc.reads - f) →
      (stepWater clock g w acc).kept =
        { w with x := w.x + w.vx * g, alpha := fadeAlpha (clock acc.reads - f) } :: acc.kept ∧
      (stepWater clock g w acc).reactionInProgress = acc.reactionInProgress) ∧
    (fadeAlpha (clock acc.reads - f) ≤ 0.02 →
      (stepWater clock g w acc).kept = acc.kept ∧
      (stepWater clock g w acc).reactionInProgress = false) ∧
    (∀ g2, 0 ≤ g2 →
      (stepWater clock g2 w acc).kept.map (fun d => d.alpha) =
        (stepWater clock g w acc).kept.map (fun d => d.alpha) ∧
      (stepWater clock g2 w acc).reactionInProgress =
        (stepWater clock g w acc).reactionInProgress) ∧
    (∀ e1 e2, e1 ≤ e2 → fadeAlpha e2 ≤ fadeAlpha e1) ∧
    (∀ e, 400 ≤ e → fadeAlpha e ≤ 0.02) ∧
    (400 ≤ clock acc.reads - f →
      (stepWater clock g w acc).kept = acc.kept ∧
      (stepWater clock g w acc).reactionInProgress = false) ∧
    (∀ s : State, s.h2oList = [w] → 400 ≤ clock 0 - f →
      (updateWater clock g s).h2oList = [] ∧
      (updateWater clock g s).reactionInProgress = false) ∧
    (∀ s : State, s.h2oList = [w] →
      (0.02 < fadeAlpha (clock 0 - f) →
        (updateWater clock g s).h2oList =
          [ { w with x := w.x + w.vx * g, alpha := fadeAlpha (clock 0 - f) } ] ∧
        (updateWater clock g s).reactionInProgress = s.reactionInProgress) ∧
      (fadeAlpha (clock 0 - f) ≤ 0.02 →
        (updateWater clock g s).h2oList = [] ∧
        (updateWater clock g s).reactionInProgress = false)) ∧
    (∀ (cw : ℕ) (s : State), s.h2oList = [w] → s.oxygen = none →
      (0.02 < fadeAlpha (clock 0 - f) →
        (updateEntities cw clock g s).h2oList =
          [ { w with x := w.x + w.vx * g, alpha := fadeAlpha (clock 0 - f) } ] ∧
        (updateEntities cw clock g s).reactionInProgress = s.reactionInProgress) ∧
      (fadeAlpha (clock 0 - f) ≤ 0.02 →
        (updateEntities cw clock g s).h2oList = [] ∧
        (updateEntities cw clock g s).reactionInProgress = false)) ∧
    (∀ (cw : ℕ) (s : State) (t : ℚ), Reachable cw s → s.h2oList = [w] →
      (0.02 < fadeAlpha (clock 0 - f) →
        (tick cw { t := t, clock := clock, globalSpeed := g } s).h2oList =
          [ { w with x := w.x + w.vx * g, alpha := fadeAlpha (clock 0 - f) } ] ∧
        (tick cw { t := t, clock := clock, globalSpeed := g } s).reactionInProgress = true) ∧
      (fadeAlpha (clock 0 - f) ≤ 0.02 →
        (tick cw { t := t, clock := clock, globalSpeed := g } s).h2oList = [] ∧
        (tick cw { t := t, clock := clock, globalSpeed := g } s).reactionInProgress = false)) ∧
    (∀ (ws1 ws2 : List H2O) (rip : Bool),
      (0.02 < fadeAlpha (clock (waterLoop clock g ws2 rip).reads - f) →
        { w with x := w.x + w.vx * g,
                 alpha := fadeAlpha (clock (waterLoop clock g ws2 rip).reads - f) } ∈
          (waterLoop clock g (ws1 ++ w :: ws2) rip).kept) ∧
      (fadeAlpha (clock (waterLoop clock g ws2 rip).reads - f) ≤ 0.02 →
        (waterLoop clock g (ws1 ++ w :: ws2) rip).reactionInProgress = false ∧
        (waterLoop clock g (ws1 ++ w :: ws2) rip).kept.length ≤ ws1.length + ws2.length)) := by
  have hs := stepWater_fading clock g w acc f hx hf hf0 hv hg
  have hdone : ∀ e : ℚ, 400 ≤ e → fadeAlpha e ≤ 0.02 := by
    intro e he
    rw [fadeAlpha_done e he]
    norm_num
  refine ⟨returnX_eq, fun e => rfl, ?_, ?_, ?_, fadeAlpha_antitone, hdone, ?_, ?_, ?_, ?_, ?_, ?_⟩
  · intro h
    rw [hs, if_neg (not_le.mpr h)]
    exact ⟨rfl, rfl⟩
  · intro h
    rw [hs, if_pos h]
    exact ⟨rfl, rfl⟩
  · intro g2 hg2
    rw [hs, stepWater_fading clock g2 w acc f hx hf hf0 hv hg2]
    split_ifs <;> exact ⟨rfl, rfl⟩
  · intro h
    have h2 := hdone _ h
    rw [hs, if_pos h2]
    exact ⟨rfl, rfl⟩
  · intro s hw h
    have h4 := hdone _ h
    unfold updateWater waterLoop
    rw [hw, List.foldr_cons, List.foldr_nil, stepWater_fading clock g w _ f hx hf hf0 hv hg]
    dsimp only
    rw [if_pos h4]
    exact ⟨rfl, rfl⟩
  · intro s hw
    exact updateWater_fading clock g w f s hx hf hf0 hv hg hw
  · intro cw s hw ho
    obtain ⟨u1, u2⟩ := updateEntities_water cw clock g s ho
    rw [u1, u2]
    exact updateWater_fading clock g w f s hx hf hf0 hv hg hw
  · intro cw s t hr hw
    have hne : s.h2oList ≠ [] := by rw [hw]; simp
    obtain ⟨u1, u2⟩ := tick_water cw { t := t, clock := clock, globalSpeed := g } s hr hne
    have hrip : s.reactionInProgress = true := (inv_reachable cw s hr).rip.mpr hne
    rw [u1, u2]
    have h := updateWater_fading clock g w f s hx hf hf0 hv hg hw
    rw [hrip] at h
    exact h
  · intro ws1 ws2 rip
    have hl : waterLoop clock g (ws1 ++ w :: ws2) rip =
        ws1.foldr (stepWater clock g) (stepWater clock g w (waterLoop clock g ws2 rip)) := by
      unfold waterLoop
      rw [List.foldr_append, List.foldr_cons]
    have hs := stepWater_fading clock g w (waterLoop clock g ws2 rip) f hx hf hf0 hv hg
    obtain ⟨l, hk, hn⟩ := stepFold_kept clock g ws1
      (stepWater clock g w (waterLoop clock g ws2 rip))
    constructor
    · intro h
      rw [hl, hk, hs, if_neg (not_le.mpr h)]
      exact List.mem_append_right _ (List.mem_cons_self _ _)
    · intro h
      rw [hl]
      constructor
      · apply stepFold_cleared
        rw [hs, if_pos h]
      · rw [hk, hs, if_pos h, List.length_append]
        dsimp only
        have := waterLoop_length clock g ws2 rip
        omega

theorem moveHydrogen_zero (a : Option ℕ) (p : Hydrogen)
    (h : p.ionized = true → p.x ≤ stopX - radius) : SamePlaceH p (moveHydrogen a 0 p) := by
  refine ⟨?_, moveHydrogen_y a 0 p, moveHydrogen_pairId a 0 p⟩
  unfold moveHydrogen
  dsimp only
  split_ifs with h1 h2 h3 h4
  · simp
  · simp
  · simp only [mul_zero, add_zero] at h4
    exact le_antisymm h4 (h (by simpa using h2))
  · simp
  · rfl

theorem moveOxygen_ge (g : ℚ) (o : Oxygen) : minX ≤ (moveOxygen g o).x := by
  unfold moveOxygen
  dsimp only
  split_ifs with h
  · exact le_refl _
  · exact not_lt.mp h

theorem moveOxygen_zero (o : Oxygen) (h : minX ≤ o.x) : moveOxygen 0 o = o := by
  unfold moveOxygen
  dsimp only
  rw [mul_zero, add_zero, if_neg (not_lt.mpr h)]

theorem newOxygen_ge (a : ℕ) : minX ≤ (newOxygen a).x := by
  norm_num [newOxygen, minX, borderRight, electrolyte, rightElectrode, fuelCell]

theorem createEntities_oxygen_ge (t : ℚ) (s : State)
    (h : ∀ o, s.oxygen = some o → minX ≤ o.x) :
    ∀ o, (createEntities t s).oxygen = some o → minX ≤ o.x := by
  intro o ho
  unfold createEntities at ho
  rw [spawnOxygen_oxygen] at ho
  split_ifs at ho with hc
  · obtain ⟨_, _, a, ha, _⟩ := hc
    rw [ha] at ho
    simp at ho
    subst ho
    exact newOxygen_ge a
  · rw [(admitPair_frame t s).1] at ho
    exact h o ho

theorem updateOxygen_oxygen_ge (g : ℚ) (s : State) (h : ∀ o, s.oxygen = some o → minX ≤ o.x) :
    ∀ o, (updateOxygen g s).oxygen = some o → minX ≤ o.x := by
  intro o1 ho1
  rcases updateOxygen_cases g s with he | ⟨o, _, _, he⟩ | ⟨o, ax, ay, _, _, he⟩
  · rw [he] at ho1
    exact h o1 ho1
  · rw [he] at ho1
    simp at ho1
    subst ho1
    exact moveOxygen_ge g o
  · rw [he] at ho1
    simp [react] at ho1

theorem reachable_oxygen_ge (cw : ℕ) (s : State) (h : Reachable cw s) :
    ∀ o, s.oxygen = some o → minX ≤ o.x := by
  induction h with
  | start t0 => intro o ho; simp [init] at ho
  | frame f s _ _ ih =>
    intro o ho
    have h1 := createEntities_oxygen_ge f.t s ih
    have h2 := updateOxygen_oxygen_ge f.globalSpeed
      (updateHydrogen cw f.globalSpeed (createEntities f.t s)) h1
    exact h2 o ho

theorem createEntities_ionized_le (t : ℚ) (s : State)
    (h : ∀ p ∈ s.hydrogen, p.ionized = true → p.x ≤ stopX - radius) :
    ∀ p ∈ (createEntities t s).hydrogen, p.ionized = true → p.x ≤ stopX - radius := by
  intro p hp hi
  by_cases ha : admitted t s
  · rw [(createEntities_whenAdmitted t s ha).1, List.mem_append] at hp
    rcases hp with hp | hp
    · exact h p hp hi
    · simp only [List.mem_cons, List.mem_singleton, List.not_mem_nil, or_false] at hp
      rcases hp with hp | hp <;> (subst hp; simp at hi)
  · rw [(createEntities_notAdmitted t s ha).1] at hp
    exact h p hp hi

theorem waterLoop_zero (clock : ℕ → ℚ) (ws : List H2O) (rip : Bool) :
    ∃ l, List.Sublist l ws ∧ List.Forall₂ SamePlaceW l (waterLoop clock 0 ws rip).kept := by
  unfold waterLoop
  induction ws with
  | nil => exact ⟨[], List.Sublist.slnil, List.Forall₂.nil⟩
  | cons w ws ih =>
    obtain ⟨l, hl, hf⟩ := ih
    rw [List.foldr_cons]
    generalize List.foldr (stepWater clock 0) _ ws = acc at hf
    unfold stepWater
    dsimp only
    split_ifs
    all_goals first
      | exact ⟨l, hl.cons w, hf⟩
      | exact ⟨w :: l, hl.cons₂ w, List.Forall₂.cons ⟨by simp, rfl⟩ hf⟩

/-- Claim C7, amended: in a reachable state in which no ionized atom lies beyond the
stop position `stopX - radius`, a frame with speed multiplier 0 moves nothing.
`createEntities` keeps the existing atoms, oxygen and droplets as they are, and every
atom, the oxygen and every droplet present at the end of the frame is one that was
present when `updateEntities` started, at the same x and y. -/
theorem speed_zero_halts (cw : ℕ) (s : State) (f : Frame) (hr : Reachable cw s)
    (hz : f.globalSpeed = 0)
    (hstop : ∀ p ∈ s.hydrogen, p.ionized = true → p.x ≤ stopX - radius) :
    (∃ l, (createEntities f.t s).hydrogen = s.hydrogen ++ l) ∧
    (∀ o, s.oxygen = some o → (createEntities f.t s).oxygen = some o) ∧
    (createEntities f.t s).h2oList = s.h2oList ∧
    PositionsHalted (createEntities f.t s) (tick cw f s) := by
  have hinv := inv_createEntities f.t s (inv_reachable cw s hr)
  have hox := createEntities_oxygen_ge f.t s (reachable_oxygen_ge cw s hr)
  have hle := createEntities_ionized_le f.t s hstop
  refine ⟨?_, createEntities_oxygen_some f.t s, ?_, ?_, ?_, ?_⟩
  · by_cases ha : admitted f.t s
    · exact ⟨_, (createEntities_whenAdmitted f.t s ha).1⟩
    · exact ⟨[], by rw [(createEntities_notAdmitted f.t s ha).1, List.append_nil]⟩
  · unfold createEntities
    rw [(spawnOxygen_frame _).2.2.2.2.2.2, (admitPair_frame f.t s).2.2]
  · have h1 : List.Sublist (tick cw f s).hydrogen
        ((createEntities f.t s).hydrogen.map
          (moveHydrogen (createEntities f.t s).allowedPairId f.globalSpeed)) :=
      (updateOxygen_hydrogen_sublist f.globalSpeed
        (updateHydrogen cw f.globalSpeed (createEntities f.t s))).trans (List.filter_sublist _)
    obtain ⟨l, hl, he⟩ := List.sublist_map_iff.mp h1
    refine ⟨l, hl, ?_⟩
    rw [he, List.forall₂_map_right_iff, List.forall₂_same, hz]
    intro p hp
    exact moveHydrogen_zero _ p (hle p (hl.subset hp))
  · intro o1 o2 h1 h2
    have h3 : (updateOxygen f.globalSpeed
        (updateHydrogen cw f.globalSpeed (createEntities f.t s))).oxygen = some o2 := h2
    have h4 : (updateHydrogen cw f.globalSpeed (createEntities f.t s)).oxygen = some o1 := h1
    rcases updateOxygen_cases f.globalSpeed
        (updateHydrogen cw f.globalSpeed (createEntities f.t s)) with
      he | ⟨o, ho, _, he⟩ | ⟨o, ax, ay, _, _, he⟩
    · rw [he, h4] at h3
      cases h3
      exact ⟨rfl, rfl⟩
    · rw [he] at h3
      rw [h4] at ho
      cases ho
      rw [hz, moveOxygen_zero o1 (hox o1 h1)] at h3
      cases h3
      exact ⟨rfl, rfl⟩
    · rw [he] at h3
      simp [react] at h3
  · intro hw
    have hno : (updateHydrogen cw f.globalSpeed (createEntities f.t s)).oxygen = none :=
      hinv.oxy_rip (hinv.rip.mpr hw)
    have ht : (tick cw f s).h2oList =
        (waterLoop f.clock f.globalSpeed (createEntities f.t s).h2oList
          (createEntities f.t s).reactionInProgress).kept := by
      unfold tick updateEntities
      rw [updateOxygen_none _ _ hno]
      rfl
    rw [ht, hz]
    exact waterLoop_zero _ _ _

theorem moveHydrogen_one (a : Option ℕ) (p : Hydrogen)
    (h : (p.ionized = false → p.x + radius < ionizeX ∧ p.vx = baseSpeed) ∧
      (p.ionized = true → p.x ≤ stopX - radius)) :
    ((moveHydrogen a 1 p).ionized = false →
      (moveHydrogen a 1 p).x + radius < ionizeX ∧ (moveHydrogen a 1 p).vx = baseSpeed) ∧
    ((moveHydrogen a 1 p).ionized = true → (moveHydrogen a 1 p).x ≤ stopX - radius) ∧
    (moveHydrogen a 1 p).x ≤ stopX - radius := by
  obtain ⟨h1, h2⟩ := h
  have hbase : p.x ≤ stopX - radius := by
    cases hi : p.ionized with
    | false =>
      have := (h1 hi).1
      rw [ionizeX_eq] at this
      rw [stopX_eq]
      norm_num [radius] at this ⊢
      linarith
    | true => exact h2 hi
  unfold moveHydrogen
  dsimp only
  split_ifs with c1 c2 c3 c4
  · obtain ⟨k1, k2⟩ := h1 c2
    rw [k2]
    rw [ionizeX_eq] at k1
    rw [stopX_eq]
    norm_num [radius, baseSpeed, pairHorizontalMultiplier] at k1 ⊢
    linarith
  · refine ⟨fun _ => ⟨lt_of_not_ge c3, (h1 c2).2⟩, fun hi => ?_, ?_⟩
    · rw [c2] at hi
      cases hi
    · have := lt_of_not_ge c3
      rw [ionizeX_eq] at this
      rw [stopX_eq]
      norm_num [radius] at this ⊢
      linarith
  · exact ⟨fun hi => absurd hi c2, fun _ => le_refl _, le_refl _⟩
  · exact ⟨fun hi => absurd hi c2, fun _ => le_of_lt (lt_of_not_ge c4), le_of_lt (lt_of_not_ge c4)⟩
  · exact ⟨h1, h2, hbase⟩

theorem updateHydrogen_belowStop (cw : ℕ) (hcw : 440 ≤ cw) (s : State) (h : BelowStop s) :
    updateHydrogen cw 1 s =
      { s with hydrogen := s.hydrogen.map (moveHydrogen s.allowedPairId 1) } ∧
    BelowStop (updateHydrogen cw 1 s) := by
  have he : updateHydrogen cw 1 s =
      { s with hydrogen := s.hydrogen.map (moveHydrogen s.allowedPairId 1) } := by
    unfold updateHydrogen
    dsimp only
    rw [List.filter_eq_self.mpr]
    intro q hq
    obtain ⟨p, hp, rfl⟩ := List.mem_map.mp hq
    have h1 := (moveHydrogen_one s.allowedPairId p (h p hp)).2.2
    rw [stopX_eq] at h1
    have h2 : (440 : ℚ) ≤ (cw : ℚ) := by exact_mod_cast hcw
    norm_num [radius] at h1
    simp only [gt_iff_lt, not_lt, decide_eq_true_eq]
    linarith
  refine ⟨he, ?_⟩
  rw [he]
  intro q hq
  obtain ⟨p, hp, rfl⟩ := List.mem_map.mp hq
  have h1 := moveHydrogen_one s.allowedPairId p (h p hp)
  exact ⟨h1.1, h1.2.1⟩

theorem createEntities_belowStop (t : ℚ) (s : State) (h : BelowStop s) :
    BelowStop (createEntities t s) := by
  intro p hp
  by_cases ha : admitted t s
  · rw [(createEntities_whenAdmitted t s ha).1, List.mem_append] at hp
    rcases hp with hp | hp
    · exact h p hp
    · simp only [List.mem_cons, List.mem_singleton, List.not_mem_nil, or_false] at hp
      rcases hp with hp | hp <;>
      · subst hp
        refine ⟨fun _ => ⟨?_, rfl⟩, fun hi => by simp at hi⟩
        norm_num [leftElectrode, fuelCell, radius, ionizeX_eq]
  · rw [(createEntities_notAdmitted t s ha).1] at hp
    exact h p hp

theorem tick_canvas (cw : ℕ) (hcw : 440 ≤ cw) (f : Frame) (hf : f.globalSpeed = 1) (s : State)
    (h : BelowStop s) : tick cw f s = tick 440 f s ∧ BelowStop (tick 440 f s) := by
  have hc := createEntities_belowStop f.t s h
  have h1 := updateHydrogen_belowStop cw hcw _ hc
  have h2 := updateHydrogen_belowStop 440 (le_refl _) _ hc
  constructor
  · unfold tick updateEntities
    rw [hf, h1.1, h2.1]
  · intro p hp
    have hp1 : p ∈ (updateOxygen f.globalSpeed
        (updateHydrogen 440 f.globalSpeed (createEntities f.t s))).hydrogen := hp
    rw [hf] at hp1
    exact h2.2 p ((updateOxygen_hydrogen_sublist _ _).subset hp1)

theorem run_canvas (cw : ℕ) (hcw : 440 ≤ cw) (fs : List Frame) (hf : ∀ f ∈ fs, f.globalSpeed = 1)
    (s : State) (h : BelowStop s) : run cw fs s = run 440 fs s := by
  induction fs generalizing s with
  | nil => rfl
  | cons f fs ih =>
    obtain ⟨h1, h2⟩ := tick_canvas cw hcw f (hf f (List.mem_cons_self _ _)) s h
    unfold run
    rw [h1]
    exact ih (fun g hg => hf g (List.mem_cons_of_mem _ hg)) _ h2

theorem run_reachable (cw : ℕ) (fs : List Frame) (hf : ∀ f ∈ fs, 0 ≤ f.globalSpeed) (s : State)
    (h : Reachable cw s) : Reachable cw (run cw fs s) := by
  induction fs generalizing s with
  | nil => exact h
  | cons f fs ih =>
    exact ih (fun g hg => hf g (List.mem_cons_of_mem _ hg)) _
      (Reachable.frame f s h (hf f (List.mem_cons_self _ _)))

/-- Claim C8: on every canvas at least 440 wide there is a run of frames, all with speed
multiplier 1.0, that reaches a state in which `reactionInProgress` is true and the
droplet of the reaction still exists, and in which `createEntities` (at a suitable
clock reading) admits a new pair, leaving `reactionInProgress` true. -/
theorem admission_during_fade (cw : ℕ) (hcw : 440 ≤ cw) :
    ∃ fs : List Frame, (∀ f ∈ fs, f.globalSpeed = 1) ∧
      Reachable cw (run cw fs (init 0)) ∧
      (run cw fs (init 0)).reactionInProgress = true ∧
      (run cw fs (init 0)).h2oList.length = 1 ∧
      ∃ t, admitted t (run cw fs (init 0)) ∧
        (createEntities t (run cw fs (init 0))).reactionInProgress = true ∧
        (createEntities t (run cw fs (init 0))).hydrogen.length = 2 := by
  have hf : ∀ f ∈ List.replicate 267 unitFrame, f.globalSpeed = 1 := by
    intro f hf
    rw [List.eq_of_mem_replicate hf]
    rfl
  have hb : BelowStop (init 0) := by
    intro p hp
    simp [init] at hp
  refine ⟨List.replicate 267 unitFrame, hf, ?_, ?_⟩
  · exact run_reachable cw _ (fun f h => by rw [hf f h]; norm_num) _ (Reachable.start 0)
  · rw [run_canvas cw hcw _ hf _ hb]
    exact ⟨by decide!, by decide!, 3300, by decide!⟩

/-- The run exists on a canvas 800 wide. -/
theorem admission_during_fade_witness :
    440 ≤ 800 ∧ ∃ fs : List Frame, (∀ f ∈ fs, f.globalSpeed = 1) ∧
      Reachable 800 (run 800 fs (init 0)) ∧
      (run 800 fs (init 0)).reactionInProgress = true ∧
      (run 800 fs (init 0)).h2oList.length = 1 ∧
      ∃ t, admitted t (run 800 fs (init 0)) ∧
        (createEntities t (run 800 fs (init 0))).reactionInProgress = true ∧
        (createEntities t (run 800 fs (init 0))).hydrogen.length = 2 :=
  ⟨by decide, admission_during_fade 800 (by decide)⟩

theorem inv_pairCount (s : State) (h : Inv s) (pid : ℕ) :
    pairCount pid s.hydrogen = 0 ∨ pairCount pid s.hydrogen = 2 := by
  unfold pairCount
  rcases h.pairs with ⟨_, _, hh⟩ | ⟨id, _, _, hh | ⟨a, b, hab, ha, hb, _⟩⟩
  · left; rw [hh]; rfl
  · left; rw [hh]; rfl
  · rw [hab]
    by_cases hp : id = pid
    · right; simp [List.countP_cons, ha, hb, hp]
    · left; simp [List.countP_cons, ha, hb, hp]

/-- Claim C1: in every state reachable from the initial state by frames with arbitrary
clock readings and non-negative speed multipliers, the number of hydrogen atoms carrying
any given pair id is 0 or 2. The same holds inside the next frame, after `createEntities`,
after the hydrogen loop with its out-of-bounds clean-up, and after the whole frame
(reaction included): the two atoms of a pair appear together and disappear together. -/
theorem pair_atoms_zero_or_two (cw : ℕ) (s : State) (hr : Reachable cw s) (pid : ℕ)
    (f : Frame) :
    (pairCount pid s.hydrogen = 0 ∨ pairCount pid s.hydrogen = 2) ∧
    (pairCount pid (createEntities f.t s).hydrogen = 0 ∨
      pairCount pid (createEntities f.t s).hydrogen = 2) ∧
    (pairCount pid (updateHydrogen cw f.globalSpeed (createEntities f.t s)).hydrogen = 0 ∨
      pairCount pid (updateHydrogen cw f.globalSpeed (createEntities f.t s)).hydrogen = 2) ∧
    (pairCount pid (tick cw f s).hydrogen = 0 ∨ pairCount pid (tick cw f s).hydrogen = 2) := by
  have h0 := inv_reachable cw s hr
  have h1 := inv_createEntities f.t s h0
  have h2 := inv_updateHydrogen cw f.globalSpeed _ h1
  exact ⟨inv_pairCount _ h0 pid, inv_pairCount _ h1 pid, inv_pairCount _ h2 pid,
    inv_pairCount _ (inv_tick cw f s h0) pid⟩

/-- After the first frame exactly two atoms carry pair id 1. -/
theorem pair_atoms_zero_or_two_witness :
    Reachable 800 (tick 800 unitFrame (init 0)) ∧
    pairCount 1 (tick 800 unitFrame (init 0)).hydrogen = 2 :=
  ⟨Reachable.frame _ _ (Reachable.start 0) (by norm_num [unitFrame]),
   ((pair_atoms_zero_or_two 800 _
      (Reachable.frame _ _ (Reachable.start 0) (by norm_num [unitFrame])) 1 unitFrame).1).resolve_left
      (by decide!)⟩

/-- Claim C9: in every reachable state, and also after `createEntities` in the next
frame, `h2oList` has at most one element, `reactionInProgress` is true exactly when a
droplet exists, and no oxygen exists while `reactionInProgress` is true. -/
theorem single_droplet_lock (cw : ℕ) (s : State) (hr : Reachable cw s) (t : ℚ) :
    s.h2oList.length ≤ 1 ∧
    (s.reactionInProgress = true ↔ s.h2oList ≠ []) ∧
    (s.reactionInProgress = true → s.oxygen = none) ∧
    (createEntities t s).h2oList.length ≤ 1 ∧
    ((createEntities t s).reactionInProgress = true ↔ (createEntities t s).h2oList ≠ []) ∧
    ((createEntities t s).reactionInProgress = true → (createEntities t s).oxygen = none) := by
  have h0 := inv_reachable cw s hr
  have h1 := inv_createEntities t s h0
  exact ⟨h0.water, h0.rip, h0.oxy_rip, h1.water, h1.rip, h1.oxy_rip⟩

/-- After the 267 frames that end with the reaction, one droplet exists and no oxygen. -/
theorem single_droplet_lock_witness :
    Reachable 800 (run 800 (List.replicate 267 unitFrame) (init 0)) ∧
    (run 800 (List.replicate 267 unitFrame) (init 0)).h2oList.length ≤ 1 ∧
    (run 800 (List.replicate 267 unitFrame) (init 0)).oxygen = none :=
  have hr : Reachable 800 (run 800 (List.replicate 267 unitFrame) (init 0)) :=
    run_reachable 800 _ (fun f hf => by rw [List.eq_of_mem_replicate hf]; norm_num [unitFrame]) _
      (Reachable.start 0)
  ⟨hr, (single_droplet_lock 800 _ hr 300).1,
    (single_droplet_lock 800 _ hr 300).2.2.1 (by decide!)⟩

/-- Claim C2: when the oxygen block of `updateEntities` runs in a state `s` whose oxygen
`o` is active, whose atoms of pair `o.targetPairId` that are ionized and stopped begin with
`m0, m1`, and where the moved oxygen is closer than 40 to their midpoint on both axes, the
block removes every atom of that pair, sets `oxygen` to null, appends exactly one droplet
at the midpoint with velocity 2.0, opacity 1 and no fade start, sets `reactionInProgress`,
empties `pairQueue` and clears `allowedPairId`, leaving the other globals alone. At the
end of the enclosing `updateEntities` call the atoms, the oxygen, the queue and the
admitted id are as the block left them, and the droplet list is what the water loop makes
of the list with the new droplet. -/
theorem reaction_effect (g : ℚ) (s : State) (o : Oxygen) (m0 m1 : Hydrogen)
    (rest : List Hydrogen)
    (ho : s.oxygen = some o) (hact : o.active = true)
    (hm : members o.targetPairId s.hydrogen = m0 :: m1 :: rest)
    (hdx : abs ((moveOxygen g o).x - (m0.x + m1.x) / 2) < 40)
    (hdy : abs ((moveOxygen g o).y - (m0.y + m1.y) / 2) < 40) :
    updateOxygen g s =
      { hydrogen := s.hydrogen.filter (fun h => ¬ (h.pairId = o.targetPairId))
        h2oList := s.h2oList ++
          [ { x := (m0.x + m1.x) / 2, y := (m0.y + m1.y) / 2, vx := 2.0, alpha := 1,
              fadeStart := none } ]
        oxygen := none
        reactionInProgress := true
        pairQueue := []
        allowedPairId := none
        lastPairTime := s.lastPairTime
        nextPairId := s.nextPairId } ∧
    (∀ h ∈ (updateOxygen g s).hydrogen, h.pairId ≠ o.targetPairId) ∧
    ∀ (cw : ℕ) (clock : ℕ → ℚ) (s0 : State), updateHydrogen cw g s0 = s →
      (updateEntities cw clock g s0).hydrogen =
        s.hydrogen.filter (fun h => ¬ (h.pairId = o.targetPairId)) ∧
      (updateEntities cw clock g s0).oxygen = none ∧
      (updateEntities cw clock g s0).pairQueue = [] ∧
      (updateEntities cw clock g s0).allowedPairId = none ∧
      (updateEntities cw clock g s0).h2oList =
        (waterLoop clock g (s.h2oList ++
          [ { x := (m0.x + m1.x) / 2, y := (m0.y + m1.y) / 2, vx := 2.0, alpha := 1,
              fadeStart := none } ]) true).kept := by
  have ht := (moveOxygen_target g o).1
  have he : updateOxygen g s =
      react (moveOxygen g o) ((m0.x + m1.x) / 2) ((m0.y + m1.y) / 2)
        { s with oxygen := some (moveOxygen g o) } := by
    rw [← ht] at hm
    simp only [updateOxygen, ho, hact, hm, if_pos (And.intro hdx hdy), if_true]
  refine ⟨?_, ?_, ?_⟩
  · rw [he]
    simp only [react, ht]
  · intro h hh
    rw [he] at hh
    simp only [react, ht, List.mem_filter] at hh
    simpa using hh.2
  · intro cw clock s0 hs
    unfold updateEntities updateWater
    dsimp only
    rw [hs, he]
    refine ⟨?_, rfl, rfl, rfl, rfl⟩
    simp only [react, ht]

/-- The reaction of frame 267 of the run at speed 1.0: oxygen at x = 559.1, atoms at x = 520,
droplet created at (520, 300). -/
theorem reaction_effect_witness :
    (updateHydrogen 800 1 preReaction).oxygen =
      some { x := 559.1, y := 300, vx := -0.7, active := true, targetPairId := 1 } ∧
    (updateOxygen 1 (updateHydrogen 800 1 preReaction)).h2oList =
      [ { x := 520, y := 300, vx := 2.0, alpha := 1, fadeStart := none } ] ∧
    (updateOxygen 1 (updateHydrogen 800 1 preReaction)).hydrogen = [] ∧
    (updateOxygen 1 (updateHydrogen 800 1 preReaction)).reactionInProgress = true :=
  have h := reaction_effect 1 (updateHydrogen 800 1 preReaction)
    { x := 559.1, y := 300, vx := -0.7, active := true, targetPairId := 1 }
    { x := 520, y := 275, vx := 0, ionized := true, stopped := true, label := "H+", pairId := 1 }
    { x := 520, y := 325, vx := 0, ionized := true, stopped := true, label := "H+", pairId := 1 }
    [] (by decide!) rfl (by decide!) (by decide!) (by decide!)
  ⟨by decide!, (congrArg State.h2oList h.1).trans (by decide!),
    (congrArg State.hydrogen h.1).trans (by decide!), congrArg State.reactionInProgress h.1⟩

/-- The run at speed 1.0 ends its frame 267 with the droplet at x = 522 and nothing else. -/
theorem postReaction_eq : postReaction = postReactionValue := by decide!

/-- A droplet that started fading at 1000 is removed at clock reading 1500; the droplet of
the run at speed 1.0, which starts fading at 300 in frame 352, leaves the frame run at clock
reading 400 with opacity 3/4. -/
theorem fade_is_wall_clock_witness :
    returnX ≤ fadingDroplet.x ∧ fadingDroplet.fadeStart = some 1000 ∧
    (stepWater (fun _ => 1500) 1 fadingDroplet
      { kept := [], reads := 0, reactionInProgress := true }).kept = [] ∧
    (stepWater (fun _ => 1500) 1 fadingDroplet
      { kept := [], reads := 0, reactionInProgress := true }).reactionInProgress = false ∧
    Reachable 800 fadingState ∧ fadingState.h2oList = [reachedDroplet] ∧
    (tick 800 fadeFrame fadingState).h2oList =
      [ { x := 694, y := 300, vx := 2.0, alpha := 3 / 4, fadeStart := some 300 } ] ∧
    (tick 800 fadeFrame fadingState).reactionInProgress = true :=
  have h := fade_is_wall_clock (fun _ => 1500) 1 fadingDroplet
    { kept := [], reads := 0, reactionInProgress := true } 1000
    (by decide!) rfl (by decide!) (by decide!) (by decide!)
  have hr : Reachable 800 fadingState :=
    run_reachable 800 _ (fun f hf => by rw [List.eq_of_mem_replicate hf]; norm_num [unitFrame]) _
      (run_reachable 800 _
        (fun f hf => by rw [List.eq_of_mem_replicate hf]; norm_num [unitFrame]) _
        (Reachable.start 0))
  have hw : fadingState.h2oList = [reachedDroplet] := by
    show (run 800 (List.replicate 85 unitFrame) postReaction).h2oList = [reachedDroplet]
    rw [postReaction_eq]
    decide!
  have k := (fade_is_wall_clock (fun _ => 400) 1 reachedDroplet
    { kept := [], reads := 0, reactionInProgress := true } 300
    (by decide!) rfl (by decide!) (by decide!) (by decide!)).2.2.2.2.2.2.2.2.2.2.2.1
      800 fadingState 400 hr hw
  ⟨by decide!, rfl, (h.2.2.2.2.2.2.2.1 (by decide!)).1, (h.2.2.2.2.2.2.2.1 (by decide!)).2,
    hr, hw, ((k.1 (by decide!)).1).trans (by decide!), (k.1 (by decide!)).2⟩

/-- Claim C7 fails as stated: after one frame at speed multiplier 250 (canvas 800 wide)
both atoms of pair 1 are ionized at x = 558, beyond the stop position 520; the next frame,
run with speed multiplier 0, puts both at x = 520. -/
theorem speed_zero_counterexample :
    Reachable 800 (tick 800 overshootFrame (init 0)) ∧ haltFrame.globalSpeed = 0 ∧
    (tick 800 overshootFrame (init 0)).hydrogen.map (fun p => (p.x, p.y, p.pairId)) =
      [(558, 275, 1), (558, 325, 1)] ∧
    (tick 800 haltFrame (tick 800 overshootFrame (init 0))).hydrogen.map
      (fun p => (p.x, p.y, p.pairId)) = [(520, 275, 1), (520, 325, 1)] ∧
    ¬ PositionsHalted (createEntities haltFrame.t (tick 800 overshootFrame (init 0)))
      (tick 800 haltFrame (tick 800 overshootFrame (init 0))) := by
  refine ⟨Reachable.frame _ _ (Reachable.start 0) (by norm_num [overshootFrame]), rfl,
    by decide!, by decide!, ?_⟩
  rintro ⟨⟨l, hl, hf⟩, _⟩
  have h1 : ∀ p ∈ (createEntities haltFrame.t (tick 800 overshootFrame (init 0))).hydrogen,
      p.x = 558 := by decide!
  have h2 : ∀ q ∈ (tick 800 haltFrame (tick 800 overshootFrame (init 0))).hydrogen,
      q.x = 520 := by decide!
  have h3 : (tick 800 haltFrame (tick 800 overshootFrame (init 0))).hydrogen ≠ [] := by decide!
  cases hq : (tick 800 haltFrame (tick 800 overshootFrame (init 0))).hydrogen with
  | nil => exact h3 hq
  | cons q r =>
    have hx : q.x = 520 := h2 q (by rw [hq]; exact List.mem_cons_self _ _)
    rw [hq] at hf
    obtain ⟨a, l2, hab, _, rfl⟩ := List.forall₂_cons_right_iff.mp hf
    have h4 := hab.1
    rw [hx, h1 a (hl.subset (List.mem_cons_self _ _))] at h4
    norm_num at h4

/-- After the first frame at speed 1.0 a frame at speed 0 moves nothing. -/
theorem speed_zero_halts_witness :
    Reachable 800 (tick 800 unitFrame (init 0)) ∧ haltFrame.globalSpeed = 0 ∧
    PositionsHalted (createEntities haltFrame.t (tick 800 unitFrame (init 0)))
      (tick 800 haltFrame (tick 800 unitFrame (init 0))) :=
  ⟨Reachable.frame _ _ (Reachable.start 0) (by norm_num [unitFrame]), rfl,
   (speed_zero_halts 800 _ haltFrame
      (Reachable.frame _ _ (Reachable.start 0) (by norm_num [unitFrame])) rfl
      (by decide!)).2.2.2⟩

end FuelCell
